import Mathlib

/-!
Verification of the candlestick-oracle repository (three Rust programs:
candlestick_oracle, uniswap_v2, uniswap_v3).

The numeric embedding: Rust machine integers (u128, u8, i64, U256) are
modelled as `Nat`/`Int`; the `f64` price/volume arithmetic is modelled by
exact rational arithmetic over `ℚ` (IEEE-754 rounding is not modelled; where
a claim hinges on exact float behaviour this is noted at the claim).
Operations that can panic in Rust (out-of-range slice indexing, `U256::to::<u128>()`
on a value ≥ 2^128) are modelled by `Option`/an explicit `panicked` outcome.
-/

namespace Oracle

/-- Structure `PriceData` from candlestick_oracle/src/main.rs (lines 56-61): one
normalized price observation.  `timestamp` is the block time in epoch
seconds (chrono `DateTime<Utc>` keyed by its epoch-second value), `price`
and `volume_usd` are the f64 fields, modelled exactly over `ℚ`. -/
structure PriceData where
  timestamp : ℤ
  price : ℚ
  volume_usd : ℚ
deriving DecidableEq, Repr

/-- Structure `CandlestickData` from candlestick_oracle/src/main.rs (lines 46-54).
`timestamp` is the bucket start in epoch milliseconds.  The source stores
the OHLCV fields as decimal strings rendered with `format!` from the f64
values; we model the underlying numeric values over `ℚ` (the fixed-width
decimal rendering is out of scope for the claims, which compare values). -/
structure CandlestickData where
  timestamp : ℤ
  «open» : ℚ
  high : ℚ
  low : ℚ
  close : ℚ
  volume : ℚ
deriving DecidableEq, Repr

/-- Function `calculate_price_v2` from candlestick_oracle/src/main.rs (lines 203-225):
returns 0 when either reserve is 0, otherwise
`(reserve1 / reserve0) * 10^(token0_decimals - token1_decimals)`.
Reserves are `u128` in the source (values always < 2^128), decimals `u8`. -/
def calculate_price_v2 (reserve0 reserve1 : ℕ) (token0_decimals token1_decimals : ℕ) : ℚ :=
  if reserve0 = 0 ∨ reserve1 = 0 then 0
  else ((reserve1 : ℚ) / (reserve0 : ℚ)) *
    10 ^ ((token0_decimals : ℤ) - (token1_decimals : ℤ))

/-- Function `calculate_price_v2` from uniswap_v2/src/main.rs (lines 175-194):
the near-duplicate of the function above WITHOUT the zero guard.  With
`reserve0 = 0` the f64 division `reserve1_f64 / reserve0_f64` produces a
non-finite value (+inf when `reserve1 > 0`, NaN when both are 0), never the
number 0; the non-finite outcomes are modelled as `none` (so that Lean's
`x / 0 = 0` convention cannot silently stand in for them) and the finite
results exactly over `ℚ`. -/
def calculate_price_v2_live (reserve0 reserve1 : ℕ)
    (token0_decimals token1_decimals : ℕ) : Option ℚ :=
  if reserve0 = 0 then none
  else some (((reserve1 : ℚ) / (reserve0 : ℚ)) *
    10 ^ ((token0_decimals : ℤ) - (token1_decimals : ℤ)))

/-- Function `estimate_volume_from_reserves` from candlestick_oracle/src/main.rs
(lines 227-240): normalizes both reserves by their decimals, sums, and
multiplies by the hardcoded 0.001 turnover heuristic. -/
def estimate_volume_from_reserves (reserve0 reserve1 : ℕ)
    (token0_decimals token1_decimals : ℕ) : ℚ :=
  ((reserve0 : ℚ) / 10 ^ token0_decimals + (reserve1 : ℚ) / 10 ^ token1_decimals) * (1 / 1000)

/-- Function `calculate_price` from uniswap_v3/src/main.rs (lines 84-96).  The source
takes the 160-bit `sqrtPriceX96`, converts it with `U256::to::<u128>()` —
which PANICS when the value is ≥ 2^128 — and then computes
`(sqrt_price / 2^96)^2 * 10^(d0 - d1)` in f64.  The panic is modelled as
`none`; this coarse model treats the f64 arithmetic as exact over `ℚ` and
is used only for the panic-threshold facts, which do not depend on
rounding.  `calculate_price_f64` below refines it with the lossy u128→f64
conversion for the rounding-sensitive monotonicity claim.  (`q_96 = 2^96`
itself is < 2^128, so its own conversion never panics.) -/
def calculate_price (sqrt_price_x96 : ℕ) (token0_decimals token1_decimals : ℕ) : Option ℚ :=
  if sqrt_price_x96 < 2 ^ 128 then
    some ((((sqrt_price_x96 : ℚ) / 2 ^ 96) ^ 2) *
      10 ^ ((token0_decimals : ℤ) - (token1_decimals : ℤ)))
  else none

/-- Round `n` to the nearest multiple of `2 ^ e`, ties to even (the
quotient's parity decides a tie).  This is the rounding a binary
floating-point cast performs on the significand grid of width `2 ^ e`. -/
def roundSig (n e : ℕ) : ℕ :=
  if 2 ^ e < 2 * (n % 2 ^ e) ∨ (2 * (n % 2 ^ e) = 2 ^ e ∧ (n / 2 ^ e) % 2 = 1) then
    (n / 2 ^ e + 1) * 2 ^ e
  else (n / 2 ^ e) * 2 ^ e

/-- The value of `n as f64` for `n : u128`, as an exact natural number:
an f64 has a 53-bit significand, so an integer below `2 ^ 53` converts
exactly, and a larger one is rounded (to nearest, ties to even — Rust's
`as` float-cast semantics) onto the grid of multiples of
`2 ^ (log2 n - 52)`.  No u128 overflows f64's exponent range. -/
def f64_round (n : ℕ) : ℕ :=
  if n < 2 ^ 53 then n else roundSig n (Nat.log 2 n - 52)

/-- Refinement of `calculate_price` (uniswap_v3/src/main.rs lines 84-96)
that models the lossy `sqrt_price.to::<u128>() as f64` conversion via
`f64_round` before the arithmetic.  As in `calculate_price`, inputs
≥ 2^128 panic (`none`); the division by the exact power 2^96 and the
squaring/scaling are modelled exactly over `ℚ` (in the program these later
steps are further monotone f64 roundings). -/
def calculate_price_f64 (sqrt_price_x96 : ℕ)
    (token0_decimals token1_decimals : ℕ) : Option ℚ :=
  if sqrt_price_x96 < 2 ^ 128 then
    some ((((f64_round sqrt_price_x96 : ℚ) / 2 ^ 96) ^ 2) *
      10 ^ ((token0_decimals : ℤ) - (token1_decimals : ℤ)))
  else none

/-- Direction labels for a decoded Swap event (uniswap_v2/src/main.rs prints
BUY / SELL; an event matching neither branch is silently skipped, which we
label `ambiguous`). -/
inductive SwapDirection where
  | buy
  | sell
  | ambiguous
deriving DecidableEq, Repr

/-- The four `uint256` amounts of a decoded `Swap` event
(uniswap_v2/src/main.rs, `sol!` block lines 23-30). -/
structure SwapEventData where
  amount0In : ℕ
  amount1In : ℕ
  amount0Out : ℕ
  amount1Out : ℕ
deriving DecidableEq, Repr

/-- The direction branch of the stream loop in uniswap_v2/src/main.rs
(lines 127-153): `if amount0In > 0 && amount1Out > 0` → BUY, `else if
amount1In > 0 && amount0Out > 0` → SELL, else nothing is printed. -/
def classify_swap_direction (s : SwapEventData) : SwapDirection :=
  if 0 < s.amount0In ∧ 0 < s.amount1Out then .buy
  else if 0 < s.amount1In ∧ 0 < s.amount0Out then .sell
  else .ambiguous

/-- A raw `Sync` log as consumed by `parse_sync_event`: the payload bytes of
`log.data().data`, and the timestamp of the log's block.  The source fetches
the block from the provider; we model that lookup as already resolved
(`block_ts`), since the claims under verification concern payload handling,
not RPC failure. -/
structure SyncLog where
  data : List ℕ
  block_ts : ℤ
deriving DecidableEq, Repr

/-- Big-endian byte-string to natural number, as `U256::from_be_slice`. -/
def beNat (bs : List ℕ) : ℕ := bs.foldl (fun acc b => acc * 256 + b) 0

/-- Outcome of processing one log: either a parsed observation, or a Rust
panic (which is NOT an `Err` and is not caught by the caller's
`if let Ok(..)`). -/
inductive ParseOutcome where
  | ok (d : PriceData)
  | panicked
deriving DecidableEq, Repr

/-- Function `parse_sync_event` from candlestick_oracle/src/main.rs (lines 170-201).
`&data[0..32]` and `&data[32..64]` panic when the payload is shorter than
32 resp. 64 bytes; `U256::to::<u128>()` panics when the decoded word is
≥ 2^128.  Both are modelled as `panicked`.  Otherwise the observation is
built from `calculate_price_v2` and `estimate_volume_from_reserves` and
stamped with the block timestamp. -/
def parse_sync_event (token0_decimals token1_decimals : ℕ) (log : SyncLog) : ParseOutcome :=
  if log.data.length < 32 then .panicked else
  let reserve0 := beNat (log.data.take 32)
  if 2 ^ 128 ≤ reserve0 then .panicked else
  if log.data.length < 64 then .panicked else
  let reserve1 := beNat ((log.data.drop 32).take 32)
  if 2 ^ 128 ≤ reserve1 then .panicked else
  .ok { timestamp := log.block_ts
      , price := calculate_price_v2 reserve0 reserve1 token0_decimals token1_decimals
      , volume_usd :=
          estimate_volume_from_reserves reserve0 reserve1 token0_decimals token1_decimals }

/-- Comparison used by the two `sort_by_key(|d| d.timestamp)` calls. -/
def tsLe (a b : PriceData) : Prop := a.timestamp ≤ b.timestamp

instance : DecidableRel tsLe := fun a b => inferInstanceAs (Decidable (a.timestamp ≤ b.timestamp))

instance : IsTotal PriceData tsLe := ⟨fun a b => Int.le_total a.timestamp b.timestamp⟩

instance : IsTrans PriceData tsLe := ⟨fun _ _ _ h h' => Int.le_trans h h'⟩

/-- Stable sort by timestamp, modelling Rust's (stable) `sort_by_key`. -/
def sortByTs (l : List PriceData) : List PriceData := List.insertionSort tsLe l

/-- The event loop of `get_historical_price_data` (lines 158-162): each log
is parsed; an `Err` would be skipped by `if let Ok`, but a panic aborts the
whole call (modelled as `none`).  In this model the only failure mode of
`parse_sync_event` is a panic, so a successful run collects every parsed
observation in log order. -/
def collect_price_data (token0_decimals token1_decimals : ℕ) :
    List SyncLog → Option (List PriceData)
  | [] => some []
  | log :: rest =>
    match parse_sync_event token0_decimals token1_decimals log with
    | .panicked => none
    | .ok d => (collect_price_data token0_decimals token1_decimals rest).map (d :: ·)

/-- Function `get_historical_price_data` from candlestick_oracle/src/main.rs (lines
136-168): parse all logs, then `price_data.sort_by_key(|d| d.timestamp)`. -/
def get_historical_price_data (token0_decimals token1_decimals : ℕ)
    (logs : List SyncLog) : Option (List PriceData) :=
  (collect_price_data token0_decimals token1_decimals logs).map sortByTs

/-- The bucket-start computation of `create_candlesticks` (lines 250-251):
`(t / I) * I` where `/` is Rust `i64` division, i.e. truncation toward
zero (`Int.tdiv`), and `I` is the interval width in seconds. -/
def bucketStartSec (t I : ℤ) : ℤ := (t.tdiv I) * I

/-- The grouping key of observation `d` for `interval_minutes = m`:
`bucketStartSec` with `I = m * 60` (source line 250: `interval_minutes as
i64 * 60`). -/
def interval_start (interval_minutes : ℕ) (d : PriceData) : ℤ :=
  bucketStartSec d.timestamp ((interval_minutes : ℤ) * 60)

/-- The per-key bucket contents.  `intervals.entry(k).or_default().push(d)`
over the input in order builds, for each key, exactly the sublist of inputs
with that key in input order — i.e. a filter. -/
def bucket_of (interval_minutes : ℕ) (l : List PriceData) (k : ℤ) : List PriceData :=
  l.filter (fun d => interval_start interval_minutes d == k)

/-- The key set of the `BTreeMap`, iterated in ascending order: the distinct
bucket keys occurring in the input, sorted ascending. -/
def bucket_keys (interval_minutes : ℕ) (l : List PriceData) : List ℤ :=
  List.insertionSort (· ≤ ·) ((l.map (interval_start interval_minutes)).dedup)

/-- The source computes `low` as `prices.iter().fold(f64::INFINITY, min)`.
Folding `min` from +∞ over a nonempty list is its minimum, here written as
a fold from the head over the tail; the `[]` case is unreachable (empty
buckets are skipped) and its value 0 is junk. -/
def listMin : List ℚ → ℚ
  | [] => 0
  | p :: ps => ps.foldl min p

/-- The body of the per-interval loop of `create_candlesticks` (lines
258-284): skip an empty bucket, sort it by timestamp (stable), then
open = first price, close = last, high = fold of `max` from 0.0,
low = fold of `min` from +∞ (`listMin`), volume = sum, and the bucket
start converted to milliseconds. -/
def candle_of (interval_minutes : ℕ) (l : List PriceData) (k : ℤ) : Option CandlestickData :=
  match sortByTs (bucket_of interval_minutes l k) with
  | [] => none
  | p :: ps =>
    let interval_data := p :: ps
    let prices := interval_data.map PriceData.price
    some { timestamp := k * 1000
         , «open» := prices.headD 0
         , high := prices.foldl max 0
         , low := listMin prices
         , close := prices.getLastD 0
         , volume := (interval_data.map PriceData.volume_usd).foldl (· + ·) 0 }

/-- Function `create_candlesticks` from candlestick_oracle/src/main.rs (lines
242-287): group into the `BTreeMap`, then emit one candle per (nonempty)
bucket in ascending key order. -/
def create_candlesticks (interval_minutes : ℕ) (l : List PriceData) : List CandlestickData :=
  (bucket_keys interval_minutes l).filterMap (candle_of interval_minutes l)

/-- The batch pipeline of `main`, i.e. the spec's `CandleSeriesBuilder.build`
applied to an already-parsed observation set: sort the observations
(`get_historical_price_data` line 165), then aggregate
(`create_candlesticks`). -/
def buildCandles (interval_minutes : ℕ) (l : List PriceData) : List CandlestickData :=
  create_candlesticks interval_minutes (sortByTs l)

/-- The full batch path from raw logs to candles (`main` lines 94-109). -/
def run_batch (token0_decimals token1_decimals interval_minutes : ℕ)
    (logs : List SyncLog) : Option (List CandlestickData) :=
  (get_historical_price_data token0_decimals token1_decimals logs).map
    (create_candlesticks interval_minutes)

/-! ## Helper lemmas on folds and sorted lists -/

lemma le_foldl_max (l : List ℚ) (a : ℚ) : a ≤ l.foldl max a := by
  induction l generalizing a with
  | nil => exact le_refl a
  | cons p ps ih => exact le_trans (le_max_left a p) (ih (max a p))

lemma mem_le_foldl_max {x : ℚ} {l : List ℚ} (hx : x ∈ l) (a : ℚ) : x ≤ l.foldl max a := by
  induction l generalizing a with
  | nil => cases hx
  | cons p ps ih =>
    rcases List.mem_cons.mp hx with h | h
    · subst h
      exact le_trans (le_max_right a x) (le_foldl_max ps (max a x))
    · exact ih h (max a p)

lemma foldl_min_le (l : List ℚ) (a : ℚ) : l.foldl min a ≤ a := by
  induction l generalizing a with
  | nil => exact le_refl a
  | cons p ps ih => exact le_trans (ih (min a p)) (min_le_left a p)

lemma foldl_min_le_mem {x : ℚ} {l : List ℚ} (hx : x ∈ l) (a : ℚ) : l.foldl min a ≤ x := by
  induction l generalizing a with
  | nil => cases hx
  | cons p ps ih =>
    rcases List.mem_cons.mp hx with h | h
    · subst h
      exact le_trans (foldl_min_le ps (min a x)) (min_le_right a x)
    · exact ih h (min a p)

lemma listMin_le_mem {x : ℚ} {l : List ℚ} (hx : x ∈ l) : listMin l ≤ x := by
  cases l with
  | nil => cases hx
  | cons p ps =>
    rcases List.mem_cons.mp hx with h | h
    · subst h
      exact foldl_min_le ps x
    · exact foldl_min_le_mem h p

lemma getLastD_mem : ∀ (l : List ℚ) (a : ℚ), l ≠ [] → l.getLastD a ∈ l
  | [], _, h => absurd rfl h
  | p :: ps, a, _ => by
    rw [List.getLastD_cons]
    cases ps with
    | nil => simp
    | cons q qs =>
      exact List.mem_cons_of_mem p (getLastD_mem (q :: qs) p (by simp))

/-- Strict timestamp order, used to show sorted outputs are unique when no
two observations share a timestamp. -/
def tsLt (a b : PriceData) : Prop := a.timestamp < b.timestamp

instance : IsAntisymm PriceData tsLt :=
  ⟨fun _ _ h h' => absurd (Int.lt_trans h h') (lt_irrefl _)⟩

lemma bucket_keys_perm_eq (m : ℕ) {l1 l2 : List PriceData} (h : l1.Perm l2) :
    bucket_keys m l1 = bucket_keys m l2 := by
  have hperm : ((l1.map (interval_start m)).dedup).Perm ((l2.map (interval_start m)).dedup) :=
    (h.map (interval_start m)).dedup
  exact List.eq_of_perm_of_sorted
    (((List.perm_insertionSort _ _).trans hperm).trans (List.perm_insertionSort _ _).symm)
    (List.sorted_insertionSort _ _) (List.sorted_insertionSort _ _)

lemma sortByTs_eq_of_perm_nodup {l1 l2 : List PriceData}
    (h : l1.Perm l2) (hnd : (l1.map PriceData.timestamp).Nodup) :
    sortByTs l1 = sortByTs l2 := by
  have hperm : (sortByTs l1).Perm (sortByTs l2) :=
    ((List.perm_insertionSort tsLe l1).trans h).trans (List.perm_insertionSort tsLe l2).symm
  have hnd1 : ((sortByTs l1).map PriceData.timestamp).Nodup :=
    ((List.perm_insertionSort tsLe l1).map PriceData.timestamp).nodup_iff.mpr hnd
  have hnd2 : ((sortByTs l2).map PriceData.timestamp).Nodup :=
    (hperm.map PriceData.timestamp).nodup_iff.mp hnd1
  have hlt1 : List.Sorted tsLt (sortByTs l1) :=
    ((List.sorted_insertionSort tsLe l1).and (List.pairwise_map.mp hnd1)).imp
      (fun hab => lt_of_le_of_ne hab.1 hab.2)
  have hlt2 : List.Sorted tsLt (sortByTs l2) :=
    ((List.sorted_insertionSort tsLe l2).and (List.pairwise_map.mp hnd2)).imp
      (fun hab => lt_of_le_of_ne hab.1 hab.2)
  exact List.eq_of_perm_of_sorted hperm hlt1 hlt2

lemma create_candlesticks_perm (m : ℕ) {l1 l2 : List PriceData}
    (h : l1.Perm l2) (hnd : (l1.map PriceData.timestamp).Nodup) :
    create_candlesticks m l1 = create_candlesticks m l2 := by
  rw [create_candlesticks, create_candlesticks, bucket_keys_perm_eq m h]
  apply List.filterMap_congr
  intro k _
  have hfil : (bucket_of m l1 k).Perm (bucket_of m l2 k) := h.filter _
  have hndf : ((bucket_of m l1 k).map PriceData.timestamp).Nodup :=
    ((List.filter_sublist l1).map PriceData.timestamp).nodup hnd
  rw [candle_of, candle_of, sortByTs_eq_of_perm_nodup hfil hndf]

/-! ## Helper lemmas on the f64 conversion rounding -/

lemma le_roundSig (n e : ℕ) : (n / 2 ^ e) * 2 ^ e ≤ roundSig n e := by
  rw [roundSig]
  split_ifs
  · exact Nat.mul_le_mul_right _ (Nat.le_succ _)
  · exact le_refl _

lemma roundSig_le (n e : ℕ) : roundSig n e ≤ (n / 2 ^ e + 1) * 2 ^ e := by
  rw [roundSig]
  split_ifs
  · exact le_refl _
  · exact Nat.mul_le_mul_right _ (Nat.le_succ _)

lemma roundSig_mono (e : ℕ) {n m : ℕ} (h : n ≤ m) : roundSig n e ≤ roundSig m e := by
  have hq : n / 2 ^ e ≤ m / 2 ^ e := Nat.div_le_div_right h
  rcases lt_or_eq_of_le hq with hlt | heq
  · calc roundSig n e ≤ (n / 2 ^ e + 1) * 2 ^ e := roundSig_le n e
      _ ≤ (m / 2 ^ e) * 2 ^ e := Nat.mul_le_mul_right _ hlt
      _ ≤ roundSig m e := le_roundSig m e
  · have hr : n % 2 ^ e ≤ m % 2 ^ e := by
      have hn := Nat.div_add_mod n (2 ^ e)
      have hm := Nat.div_add_mod m (2 ^ e)
      rw [heq] at hn
      have h' : 2 ^ e * (m / 2 ^ e) + n % 2 ^ e ≤ 2 ^ e * (m / 2 ^ e) + m % 2 ^ e := by
        rw [hn, hm]
        exact h
      exact Nat.le_of_add_le_add_left h'
    by_cases hup : 2 ^ e < 2 * (n % 2 ^ e) ∨
        (2 * (n % 2 ^ e) = 2 ^ e ∧ (n / 2 ^ e) % 2 = 1)
    · have hupm : 2 ^ e < 2 * (m % 2 ^ e) ∨
          (2 * (m % 2 ^ e) = 2 ^ e ∧ (m / 2 ^ e) % 2 = 1) := by
        rcases hup with h1 | ⟨h1, h2⟩
        · left
          omega
        · rcases lt_or_eq_of_le (by omega : 2 * (n % 2 ^ e) ≤ 2 * (m % 2 ^ e)) with hlt2 | heq2
          · left
            omega
          · right
            exact ⟨by omega, heq ▸ h2⟩
      rw [roundSig, if_pos hup, roundSig, if_pos hupm, heq]
    · rw [roundSig, if_neg hup]
      calc (n / 2 ^ e) * 2 ^ e = (m / 2 ^ e) * 2 ^ e := by rw [heq]
        _ ≤ roundSig m e := le_roundSig m e

lemma log2_ge_53 {n : ℕ} (h : 2 ^ 53 ≤ n) : 53 ≤ Nat.log 2 n := by
  have hlog : Nat.log 2 (2 ^ 53) = 53 := Nat.log_pow (by norm_num) 53
  have hmono := Nat.log_mono_right (b := 2) h
  rwa [hlog] at hmono

lemma le_f64_round {n : ℕ} (h : 2 ^ 53 ≤ n) : 2 ^ Nat.log 2 n ≤ f64_round n := by
  rw [f64_round, if_neg (not_lt.mpr h)]
  have hL := log2_ge_53 h
  have hpl : 2 ^ Nat.log 2 n ≤ n := Nat.pow_log_le_self 2 (by positivity)
  have hsplit : 2 ^ Nat.log 2 n = 2 ^ 52 * 2 ^ (Nat.log 2 n - 52) := by
    rw [← pow_add]
    congr 1
    omega
  have hq : 2 ^ 52 ≤ n / 2 ^ (Nat.log 2 n - 52) := by
    rw [Nat.le_div_iff_mul_le (by positivity)]
    calc 2 ^ 52 * 2 ^ (Nat.log 2 n - 52) = 2 ^ Nat.log 2 n := hsplit.symm
      _ ≤ n := hpl
  calc 2 ^ Nat.log 2 n = 2 ^ 52 * 2 ^ (Nat.log 2 n - 52) := hsplit
    _ ≤ (n / 2 ^ (Nat.log 2 n - 52)) * 2 ^ (Nat.log 2 n - 52) :=
        Nat.mul_le_mul_right _ hq
    _ ≤ roundSig n (Nat.log 2 n - 52) := le_roundSig n _

lemma f64_round_le {n : ℕ} (h : 2 ^ 53 ≤ n) : f64_round n ≤ 2 ^ (Nat.log 2 n + 1) := by
  rw [f64_round, if_neg (not_lt.mpr h)]
  have hL := log2_ge_53 h
  have hlt : n < 2 ^ (Nat.log 2 n + 1) := Nat.lt_pow_succ_log_self (by norm_num) n
  have hsplit : 2 ^ (Nat.log 2 n + 1) = 2 ^ 53 * 2 ^ (Nat.log 2 n - 52) := by
    rw [← pow_add]
    congr 1
    omega
  have hq : n / 2 ^ (Nat.log 2 n - 52) < 2 ^ 53 := by
    apply Nat.div_lt_of_lt_mul
    calc n < 2 ^ (Nat.log 2 n + 1) := hlt
      _ = 2 ^ (Nat.log 2 n - 52) * 2 ^ 53 := by rw [hsplit, mul_comm]
  calc roundSig n (Nat.log 2 n - 52)
      ≤ (n / 2 ^ (Nat.log 2 n - 52) + 1) * 2 ^ (Nat.log 2 n - 52) := roundSig_le n _
    _ ≤ 2 ^ 53 * 2 ^ (Nat.log 2 n - 52) := Nat.mul_le_mul_right _ (by omega)
    _ = 2 ^ (Nat.log 2 n + 1) := hsplit.symm

lemma f64_round_mono {n m : ℕ} (h : n ≤ m) : f64_round n ≤ f64_round m := by
  by_cases hm : m < 2 ^ 53
  · have hn : n < 2 ^ 53 := lt_of_le_of_lt h hm
    rw [f64_round, if_pos hn, f64_round, if_pos hm]
    exact h
  · push_neg at hm
    have hmR : 2 ^ Nat.log 2 m ≤ f64_round m := le_f64_round hm
    by_cases hn : n < 2 ^ 53
    · rw [f64_round, if_pos hn]
      calc n ≤ 2 ^ 53 := hn.le
        _ ≤ 2 ^ Nat.log 2 m := Nat.pow_le_pow_right (by norm_num) (log2_ge_53 hm)
        _ ≤ f64_round m := hmR
    · push_neg at hn
      rcases lt_or_eq_of_le (Nat.log_mono_right (b := 2) h) with hL | hL
      · calc f64_round n ≤ 2 ^ (Nat.log 2 n + 1) := f64_round_le hn
          _ ≤ 2 ^ Nat.log 2 m := Nat.pow_le_pow_right (by norm_num) hL
          _ ≤ f64_round m := hmR
      · rw [f64_round, if_neg (not_lt.mpr hn), f64_round, if_neg (not_lt.mpr hm), hL]
        exact roundSig_mono _ h

lemma f64_round_two_pow_53 : f64_round (2 ^ 53) = 2 ^ 53 := by
  have hlog : Nat.log 2 (2 ^ 53) = 53 := Nat.log_pow (by norm_num) 53
  rw [f64_round, if_neg (by norm_num), hlog, roundSig]
  norm_num

lemma f64_round_two_pow_53_succ : f64_round (2 ^ 53 + 1) = 2 ^ 53 := by
  have hlog : Nat.log 2 (2 ^ 53 + 1) = 53 :=
    Nat.log_eq_of_pow_le_of_lt_pow (by norm_num) (by norm_num)
  rw [f64_round, if_neg (by norm_num), hlog, roundSig]
  norm_num

/-! ## Claim theorems -/

/-- C4 counterexample: the claim covers deriveFromReserves as realized by
BOTH cited `calculate_price_v2` variants, but the uniswap_v2 variant has no
zero guard: at reserve0 = 0, reserve1 = 5 (decimals 18/18) its f64 division
by zero yields a non-finite value (+inf), not the claimed price 0. -/
theorem calculate_price_v2_live_zero_cex :
    calculate_price_v2_live 0 5 18 18 = none ∧
    calculate_price_v2_live 0 5 18 18 ≠ some 0 := by
  constructor
  · rw [calculate_price_v2_live, if_pos rfl]
  · rw [calculate_price_v2_live, if_pos rfl]
    exact fun h => nomatch h

/-- C4 amended: the candlestick_oracle `calculate_price_v2` (the variant
with the zero guard, which feeds the aggregation pipeline) satisfies the
full input-output specification — for reserves r0, r1 > 0 it returns
`(r1 / r0) * 10^(d0 - d1)`, and for a zero reserve it returns 0.  The
uniswap_v2 near-duplicate satisfies the same equation for r0 > 0 but lacks
the zero guard: at reserve0 = 0 it produces a non-finite value (modelled
`none`), not 0, so the zero clause holds only for the guarded variant. -/
theorem calculate_price_v2_spec (r0 r1 d0 d1 : ℕ) :
    (0 < r0 → 0 < r1 →
      calculate_price_v2 r0 r1 d0 d1 = ((r1 : ℚ) / r0) * 10 ^ ((d0 : ℤ) - d1)) ∧
    calculate_price_v2 0 r1 d0 d1 = 0 ∧
    (0 < r0 →
      calculate_price_v2_live r0 r1 d0 d1 =
        some (((r1 : ℚ) / r0) * 10 ^ ((d0 : ℤ) - d1))) ∧
    calculate_price_v2_live 0 r1 d0 d1 = none := by
  refine ⟨?_, ?_, ?_, ?_⟩
  · intro h0 h1
    rw [calculate_price_v2, if_neg]
    push_neg
    exact ⟨h0.ne', h1.ne'⟩
  · rw [calculate_price_v2, if_pos (Or.inl rfl)]
  · intro h0
    rw [calculate_price_v2_live, if_neg h0.ne']
  · rw [calculate_price_v2_live, if_pos rfl]

/-- Witness for C4 at r0 = 2, r1 = 3, d0 = 1, d1 = 0. -/
theorem calculate_price_v2_spec_witness :
    calculate_price_v2 2 3 1 0 = ((3 : ℚ) / 2) * 10 ^ ((1 : ℤ) - 0) ∧
    calculate_price_v2 0 3 1 0 = 0 ∧
    calculate_price_v2_live 2 3 1 0 = some (((3 : ℚ) / 2) * 10 ^ ((1 : ℤ) - 0)) ∧
    calculate_price_v2_live 0 3 1 0 = none :=
  ⟨(calculate_price_v2_spec 2 3 1 0).1 (by norm_num) (by norm_num),
   (calculate_price_v2_spec 2 3 1 0).2.1,
   (calculate_price_v2_spec 2 3 1 0).2.2.1 (by norm_num),
   (calculate_price_v2_spec 2 3 1 0).2.2.2⟩

/-- C5 (code bug): the claim says `deriveFromSqrtPrice` succeeds over the
entire 160-bit input range after widening.  The source instead converts the
160-bit value with `U256::to::<u128>()`, which panics for every
`sqrtPriceQ96 ≥ 2^128` (and squares in 64-bit floats below that): at the
failing input `sqrtPriceQ96 = 2^128` (inside the 160-bit range) the code
raises, while `2^128 - 1` still yields a value. -/
theorem calculate_price_panics_above_u128 :
    calculate_price (2 ^ 128) 18 6 = none ∧
    (calculate_price (2 ^ 128 - 1) 18 6).isSome = true ∧
    (2 ^ 128 : ℕ) < 2 ^ 160 := by
  refine ⟨?_, ?_, by norm_num⟩
  · rw [calculate_price, if_neg (by norm_num)]
  · rw [calculate_price, if_pos (by norm_num)]
    rfl

/-- C8 counterexample: strict monotonicity of `deriveFromSqrtPrice` over
all 160-bit inputs fails twice on the code.  At `sqrtPriceQ96 = 2^128 <
2^160` the code panics (no value is produced at all), and below the panic
threshold the u128→f64 conversion rounds to 53 significant bits, so the
adjacent inputs `2^53` and `2^53 + 1` convert to the same double and yield
identical prices. -/
theorem sqrt_price_monotone_cex :
    (calculate_price (2 ^ 128) 0 0 = none ∧ (2 ^ 128 : ℕ) < 2 ^ 160) ∧
    ((2 ^ 53 : ℕ) < 2 ^ 53 + 1 ∧ (2 ^ 53 + 1 : ℕ) < 2 ^ 128 ∧
      calculate_price_f64 (2 ^ 53 + 1) 0 0 = calculate_price_f64 (2 ^ 53) 0 0) := by
  refine ⟨⟨?_, by norm_num⟩, by norm_num, by norm_num, ?_⟩
  · rw [calculate_price, if_neg (by norm_num)]
  · rw [calculate_price_f64, if_pos (by norm_num), calculate_price_f64,
      if_pos (by norm_num), f64_round_two_pow_53, f64_round_two_pow_53_succ]

/-- C8 amended: with the lossy u128→f64 conversion modelled, the price is
monotonically non-decreasing in `sqrtPriceQ96` on the sub-range where the
code does not panic (inputs < 2^128): the conversion rounding is monotone
and every later step of the program's computation is a monotone rounded
operation on a non-negative value, here taken exactly.  Strict increase
fails (see the counterexample), and inputs ≥ 2^128 raise. -/
theorem calculate_price_f64_mono (d0 d1 a b : ℕ) (hab : a ≤ b) (hb : b < 2 ^ 128) :
    ∃ va vb, calculate_price_f64 a d0 d1 = some va ∧
      calculate_price_f64 b d0 d1 = some vb ∧ va ≤ vb := by
  have ha : a < 2 ^ 128 := lt_of_le_of_lt hab hb
  refine ⟨_, _, by rw [calculate_price_f64, if_pos ha],
    by rw [calculate_price_f64, if_pos hb], ?_⟩
  have hcast : (f64_round a : ℚ) ≤ (f64_round b : ℚ) := by
    exact_mod_cast f64_round_mono hab
  gcongr

/-- Witness for C8's amended theorem at a = 1, b = 2, d0 = d1 = 0. -/
theorem calculate_price_f64_mono_witness :
    ∃ va vb, calculate_price_f64 1 0 0 = some va ∧ calculate_price_f64 2 0 0 = some vb ∧
      va ≤ vb :=
  calculate_price_f64_mono 0 0 1 2 (by norm_num) (by norm_num)

/-- C9 counterexample: a swap in which both directional pairs are active
(all four amounts positive) satisfies the claim's Sell premise
(`amount1In > 0 ∧ amount0Out > 0`) yet is classified Buy, not Sell,
because the Buy branch is tested first. -/
theorem classify_both_pairs_cex :
    classify_swap_direction ⟨1, 1, 1, 1⟩ = SwapDirection.buy ∧
    classify_swap_direction ⟨1, 1, 1, 1⟩ ≠ SwapDirection.sell := by decide

/-- C9 amended: classification is total (never raises) and is decided by
the directional pairs with the Buy pair tested first: Buy iff
`amount0In > 0 ∧ amount1Out > 0`; Sell iff that fails and
`amount1In > 0 ∧ amount0Out > 0`; otherwise (in particular for the
all-zero swap) Ambiguous, which is simply excluded from output. -/
theorem classify_swap_direction_spec (s : SwapEventData) :
    (classify_swap_direction s = .buy ↔ 0 < s.amount0In ∧ 0 < s.amount1Out) ∧
    (classify_swap_direction s = .sell ↔
      ¬(0 < s.amount0In ∧ 0 < s.amount1Out) ∧ (0 < s.amount1In ∧ 0 < s.amount0Out)) ∧
    (classify_swap_direction s = .ambiguous ↔
      ¬(0 < s.amount0In ∧ 0 < s.amount1Out) ∧ ¬(0 < s.amount1In ∧ 0 < s.amount0Out)) := by
  unfold classify_swap_direction
  split_ifs with h1 h2 <;> simp_all

/-- C10: a decoded swap with both directional pairs simultaneously active
is deterministically labelled Buy (the `amount0In/amount1Out` branch is
tested first); it is never labelled Sell and never excluded as Ambiguous. -/
theorem both_pairs_active_classified_buy (s : SwapEventData)
    (h0 : 0 < s.amount0In) (h1 : 0 < s.amount1Out)
    (h2 : 0 < s.amount1In) (h3 : 0 < s.amount0Out) :
    classify_swap_direction s = .buy ∧ classify_swap_direction s ≠ .sell ∧
      classify_swap_direction s ≠ .ambiguous := by
  have hbuy : classify_swap_direction s = .buy := by
    unfold classify_swap_direction
    rw [if_pos ⟨h0, h1⟩]
  refine ⟨hbuy, ?_, ?_⟩ <;> rw [hbuy] <;> decide

/-- Witness for C10 at the all-active swap (2, 4, 5, 3). -/
theorem both_pairs_active_classified_buy_witness :
    classify_swap_direction ⟨2, 4, 5, 3⟩ = .buy ∧
    classify_swap_direction ⟨2, 4, 5, 3⟩ ≠ .sell ∧
    classify_swap_direction ⟨2, 4, 5, 3⟩ ≠ .ambiguous :=
  both_pairs_active_classified_buy ⟨2, 4, 5, 3⟩ (by norm_num) (by norm_num)
    (by norm_num) (by norm_num)

/-- C6 counterexample: for the negative timestamp t = -61 with a 60-second
interval, the code's truncating i64 division gives bucket start -60, while
`floor(-61/60)*60 = -120`; in particular `bucketStart ≤ t` fails, refuting
the claim's floor equation and lower bound for negative timestamps. -/
theorem bucket_start_negative_cex :
    bucketStartSec (-61) 60 = -60 ∧ Int.fdiv (-61) 60 * 60 = -120 ∧
    ¬ bucketStartSec (-61) 60 ≤ -61 := by decide

/-- C6 amended: the bucket start is `trunc(t/I)*I` (Rust i64 division
truncates toward zero), which is always a multiple of I; for every
non-negative timestamp it coincides with `floor(t/I)*I` and satisfies
`bucketStart(t,I) ≤ t < bucketStart(t,I) + I`. -/
theorem bucket_start_spec (t I : ℤ) (hI : 0 < I) :
    I ∣ bucketStartSec t I ∧
    (0 ≤ t → (bucketStartSec t I = (Int.fdiv t I) * I ∧
      bucketStartSec t I ≤ t ∧ t < bucketStartSec t I + I)) := by
  constructor
  · exact dvd_mul_left I (t.tdiv I)
  · intro ht
    have key : bucketStartSec t I = t - t % I := by
      rw [bucketStartSec, Int.tdiv_eq_ediv ht hI.le, mul_comm]
      linarith [Int.ediv_add_emod t I]
    have h2 := Int.emod_nonneg t (ne_of_gt hI)
    have h3 := Int.emod_lt_of_pos t hI
    refine ⟨?_, by linarith, by linarith⟩
    rw [bucketStartSec, Int.tdiv_eq_ediv ht hI.le, Int.fdiv_eq_ediv t hI.le]

/-- Witness for C6's amended theorem at t = 130, I = 60. -/
theorem bucket_start_spec_witness :
    ((60 : ℤ) ∣ bucketStartSec 130 60) ∧
    (bucketStartSec 130 60 = Int.fdiv 130 60 * 60 ∧
      bucketStartSec 130 60 ≤ 130 ∧ (130 : ℤ) < bucketStartSec 130 60 + 60) :=
  ⟨(bucket_start_spec 130 60 (by norm_num)).1,
   (bucket_start_spec 130 60 (by norm_num)).2 (by norm_num)⟩

/-- C7: every candle emitted by `create_candlesticks` satisfies the OHLC
invariant: its low is at most the smaller of open and close, and its high
is at least the larger of open and close. -/
theorem candle_ohlc_invariant (m : ℕ) (l : List PriceData) (c : CandlestickData)
    (hc : c ∈ create_candlesticks m l) :
    c.low ≤ min c.«open» c.close ∧ max c.«open» c.close ≤ c.high := by
  obtain ⟨k, -, hck⟩ := List.mem_filterMap.mp hc
  rw [candle_of] at hck
  split at hck
  · exact absurd hck (by simp)
  · rename_i p ps heq
    obtain rfl := Option.some.inj hck
    have hne : (p :: ps).map PriceData.price ≠ [] := by simp
    have hopen : ((p :: ps).map PriceData.price).headD 0 ∈ (p :: ps).map PriceData.price := by
      simp
    have hclose := getLastD_mem ((p :: ps).map PriceData.price) 0 hne
    constructor
    · exact le_min (listMin_le_mem hopen) (listMin_le_mem hclose)
    · exact max_le (mem_le_foldl_max hopen 0) (mem_le_foldl_max hclose 0)

/-- Witness for C7: the single observation (t = 0, price = 2, volume = 1)
with a 1-minute interval produces the candle (0, 2, 2, 2, 2, 1), which is
in the output and satisfies the invariant. -/
theorem candle_ohlc_invariant_witness :
    (⟨0, 2, 2, 2, 2, 1⟩ : CandlestickData).low ≤
      min (⟨0, 2, 2, 2, 2, 1⟩ : CandlestickData).«open»
        (⟨0, 2, 2, 2, 2, 1⟩ : CandlestickData).close ∧
    max (⟨0, 2, 2, 2, 2, 1⟩ : CandlestickData).«open»
        (⟨0, 2, 2, 2, 2, 1⟩ : CandlestickData).close ≤
      (⟨0, 2, 2, 2, 2, 1⟩ : CandlestickData).high :=
  candle_ohlc_invariant 1 [⟨0, 2, 1⟩] ⟨0, 2, 2, 2, 2, 1⟩ (by
    have h : create_candlesticks 1 [⟨0, 2, 1⟩] = [⟨0, 2, 2, 2, 2, 1⟩] := by
      with_unfolding_all rfl
    rw [h]
    exact List.mem_singleton.mpr rfl)

/-- C1 counterexample: two observations sharing timestamp 0 with prices 1
and 2.  The two arrival orders are permutations of each other, yet the
built candle differs (open/close swap), because both sorts are stable and
equal-timestamp observations keep arrival order. -/
theorem build_perm_equal_timestamps_cex :
    ([⟨0, 1, 1⟩, ⟨0, 2, 1⟩] : List PriceData).Perm [⟨0, 2, 1⟩, ⟨0, 1, 1⟩] ∧
    buildCandles 1 [⟨0, 1, 1⟩, ⟨0, 2, 1⟩] ≠ buildCandles 1 [⟨0, 2, 1⟩, ⟨0, 1, 1⟩] := by
  constructor
  · exact List.Perm.swap _ _ _
  · have h1 : buildCandles 1 [⟨0, 1, 1⟩, ⟨0, 2, 1⟩] = [⟨0, 1, 2, 1, 2, 2⟩] := by
      with_unfolding_all rfl
    have h2 : buildCandles 1 [⟨0, 2, 1⟩, ⟨0, 1, 1⟩] = [⟨0, 2, 2, 1, 1, 2⟩] := by
      with_unfolding_all rfl
    rw [h1, h2]
    intro hcontra
    exact absurd (List.head_eq_of_cons_eq hcontra) (by decide)

/-- C1 amended: building the candle series from any permutation of an
observation set yields an identical output sequence, provided the
observations' timestamps are pairwise distinct (and the interval is
positive).  When several observations share a timestamp, the stable sorts
preserve arrival order, so open/close may depend on it. -/
theorem build_perm_invariant_of_nodup_timestamps (m : ℕ) (l1 l2 : List PriceData)
    (hm : 0 < m) (h : l1.Perm l2) (hnd : (l1.map PriceData.timestamp).Nodup) :
    buildCandles m l1 = buildCandles m l2 := by
  rw [buildCandles, buildCandles]
  apply create_candlesticks_perm
  · exact ((List.perm_insertionSort tsLe l1).trans h).trans
      (List.perm_insertionSort tsLe l2).symm
  · exact ((List.perm_insertionSort tsLe l1).map PriceData.timestamp).nodup_iff.mpr hnd

/-- Witness for C1's amended theorem: two observations at distinct
timestamps 0 and 60, in both arrival orders. -/
theorem build_perm_invariant_witness :
    buildCandles 1 [⟨0, 1, 1⟩, ⟨60, 2, 1⟩] = buildCandles 1 [⟨60, 2, 1⟩, ⟨0, 1, 1⟩] :=
  build_perm_invariant_of_nodup_timestamps 1 [⟨0, 1, 1⟩, ⟨60, 2, 1⟩]
    [⟨60, 2, 1⟩, ⟨0, 1, 1⟩] (by norm_num) (List.Perm.swap _ _ _) (by decide)

/-- C3 (code bug): the claim (with the spec's error-handling table) says a
payload shorter than 64 bytes is excluded without raising and the rest of
the batch still aggregates.  The code's `&data[0..32]` / `&data[32..64]`
slice indexing panics on a 3-byte payload, aborting the whole batch — the
panic is not an `Err`, so the caller's `if let Ok(..)` skip never engages.
At the failing input (a 3-byte log followed by a well-formed log carrying
reserves 1 and 2) the batch returns no data at all, although the
well-formed log alone parses to the observation (t = 10, price = 2,
volume = 3/1000). -/
theorem short_payload_panics :
    get_historical_price_data 0 0
      [⟨[0, 0, 0], 0⟩,
       ⟨(List.replicate 31 0 ++ [1]) ++ (List.replicate 31 0 ++ [2]), 10⟩] = none ∧
    get_historical_price_data 0 0
      [⟨(List.replicate 31 0 ++ [1]) ++ (List.replicate 31 0 ++ [2]), 10⟩]
      = some [⟨10, 2, 3/1000⟩] := by
  constructor
  · with_unfolding_all rfl
  · with_unfolding_all rfl

/-- C2 counterexample: a Sync event with reserve0 = 0 (reserve1 = 5) at
t = 0, batched with a well-formed event (reserves 1 and 2) at t = 10.  The
zero-reserve event is NOT excluded: it enters the observation set with
price 0, and the resulting candle takes its open and low from it
(open = low = 0). -/
theorem zero_reserve_enters_aggregation_cex :
    get_historical_price_data 0 0
      [⟨List.replicate 63 0 ++ [5], 0⟩,
       ⟨(List.replicate 31 0 ++ [1]) ++ (List.replicate 31 0 ++ [2]), 10⟩]
      = some [⟨0, 0, 1/200⟩, ⟨10, 2, 3/1000⟩] ∧
    create_candlesticks 1 [⟨0, 0, 1/200⟩, ⟨10, 2, 3/1000⟩] = [⟨0, 0, 2, 0, 2, 1/125⟩] := by
  constructor
  · with_unfolding_all rfl
  · with_unfolding_all rfl

/-- C2 amended: for an event whose reserve state has a zero reserve, the
derived price is 0 — the zero guard in `calculate_price_v2` avoids the
division, so no NaN arises — but the observation is still produced (and,
as the counterexample shows, enters aggregation with price 0 rather than
being excluded). -/
theorem zero_reserve_price_zero (d0 d1 : ℕ) (log : SyncLog) (d : PriceData)
    (hok : parse_sync_event d0 d1 log = .ok d)
    (hzero : beNat (log.data.take 32) = 0 ∨ beNat ((log.data.drop 32).take 32) = 0) :
    d.price = 0 := by
  unfold parse_sync_event at hok
  split_ifs at hok <;> simp only [] at hok <;> split_ifs at hok
  injection hok with h
  subst h
  exact if_pos hzero

/-- Witness for C2's amended theorem: the zero-reserve log from the
counterexample parses to an observation with price 0. -/
theorem zero_reserve_price_zero_witness :
    (⟨(0 : ℤ), 0, 1/200⟩ : PriceData).price = 0 :=
  zero_reserve_price_zero 0 0 ⟨List.replicate 63 0 ++ [5], 0⟩ ⟨0, 0, 1/200⟩
    (by with_unfolding_all rfl) (Or.inl (by with_unfolding_all rfl))

end Oracle
